import Mathlib

/-!
# Verification of the terminal idle-game progression engine

Shallow embedding of the game progression engine from `src/main.rs`
(structs `Upgrade`, `Achievement`, `GameState` and their methods).

Modelling conventions:
* `f64` quantities (gold, costs, production rates) are modelled as exact
  rationals `ℚ`; the algorithms use only `+ - * / powi`, all exact on `ℚ`.
* `Instant` is a rational number of seconds; `Duration` is a non-negative
  rational number of seconds.  `Instant::duration_since` saturates at zero,
  modelled by `durationSince`.
* `Instant::now()` calls inside a method become an explicit `now : ℚ`
  parameter of the embedded function.
* The `.unwrap()` in `buy_selected` (which cannot panic, because the looked-up
  upgrade is drawn from the same vector that is searched) is embedded as an
  `Option` match whose `none` branch returns the state unchanged.
-/

namespace IdleGame

/-- Embeds `enum UpgradeType { Passive, Click }` from the source. -/
inductive UpgradeType
  | Passive
  | Click
deriving DecidableEq, Repr

/-- Embeds `struct Upgrade` from the source; `f64` fields become `ℚ`,
`owned : u64` becomes `ℕ`. -/
structure Upgrade where
  name : String
  description : String
  base_cost : ℚ
  cost_multiplier : ℚ
  base_production : ℚ
  owned : ℕ
  upgrade_type : UpgradeType
deriving DecidableEq, Repr

/-- Embeds `Upgrade::new`. -/
def Upgrade.new (name description : String) (base_cost cost_multiplier base_production : ℚ)
    (upgrade_type : UpgradeType) : Upgrade :=
  { name := name, description := description, base_cost := base_cost,
    cost_multiplier := cost_multiplier, base_production := base_production,
    owned := 0, upgrade_type := upgrade_type }

/-- Embeds `Upgrade::current_cost`: `base_cost * cost_multiplier.powi(owned)`. -/
def Upgrade.current_cost (u : Upgrade) : ℚ :=
  u.base_cost * u.cost_multiplier ^ u.owned

/-- Embeds `Upgrade::current_production`: `base_production * owned as f64`. -/
def Upgrade.current_production (u : Upgrade) : ℚ :=
  u.base_production * (u.owned : ℚ)

/-- Embeds `Upgrade::can_afford`: `gold >= current_cost()`. -/
def Upgrade.can_afford (u : Upgrade) (gold : ℚ) : Bool :=
  decide (u.current_cost ≤ gold)

/-- Embeds `Upgrade::purchase`: returns the cost that applied before the increment,
and the upgrade with `owned` incremented. -/
def Upgrade.purchase (u : Upgrade) : ℚ × Upgrade :=
  (u.current_cost, { u with owned := u.owned + 1 })

/-- Embeds `enum AchievementType` from the source (each variant carries its target). -/
inductive AchievementType
  | TotalGold (t : ℚ)
  | GoldPerSecond (t : ℚ)
  | TotalClicks (t : ℕ)
  | ClickPower (t : ℚ)
  | UpgradesPurchased (t : ℕ)
deriving DecidableEq, Repr

/-- Embeds `struct Achievement` from the source. -/
structure Achievement where
  name : String
  description : String
  completed : Bool
  target : ℚ
  achievement_type : AchievementType
deriving DecidableEq, Repr

/-- Embeds `Achievement::new`: extracts the numeric target from the variant. -/
def Achievement.new (name description : String) (achievement_type : AchievementType) :
    Achievement :=
  { name := name, description := description, completed := false,
    target :=
      match achievement_type with
      | .TotalGold t => t
      | .GoldPerSecond t => t
      | .TotalClicks t => (t : ℚ)
      | .ClickPower t => t
      | .UpgradesPurchased t => (t : ℚ),
    achievement_type := achievement_type }

/-- Embeds `enum Tab { Passive, Click, Achievements }` from the source. -/
inductive Tab
  | Passive
  | Click
  | Achievements
deriving DecidableEq, Repr

/-- Embeds `struct GameState` from the source; the two `Instant` fields are rational
timestamps in seconds and `click_cooldown : Duration` a rational number of
seconds. -/
structure GameState where
  gold : ℚ
  gold_per_second : ℚ
  click_power : ℚ
  total_gold_earned : ℚ
  total_upgrades_purchased : ℕ
  upgrades : List Upgrade
  achievements : List Achievement
  selected_upgrade : ℕ
  current_tab : Tab
  last_update : ℚ
  total_clicks : ℕ
  show_help : Bool
  last_click : ℚ
  click_cooldown : ℚ

/-- The upgrade catalog built in `GameState::default`. -/
def initialUpgrades : List Upgrade :=
  [ Upgrade.new "Pickaxe" "Basic mining tool (+0.1 gold/sec)" 10 1.15 0.1 .Passive,
    Upgrade.new "Shovel" "Dig faster (+0.5 gold/sec)" 50 1.15 0.5 .Passive,
    Upgrade.new "Drill" "Mechanical mining (+2.0 gold/sec)" 250 1.15 2 .Passive,
    Upgrade.new "Excavator" "Heavy machinery (+8.0 gold/sec)" 1000 1.15 8 .Passive,
    Upgrade.new "Mine Shaft" "Deep mining operation (+30.0 gold/sec)" 5000 1.15 30 .Passive,
    Upgrade.new "Gold Factory" "Automated gold production (+100.0 gold/sec)" 25000 1.15 100 .Passive,
    Upgrade.new "Strong Arms" "Better swinging (+1 gold per click)" 25 1.2 1 .Click,
    Upgrade.new "Steel Tools" "Sharper equipment (+2 gold per click)" 100 1.2 2 .Click,
    Upgrade.new "Power Gloves" "Enhanced grip (+5 gold per click)" 500 1.2 5 .Click,
    Upgrade.new "Hydraulic Hammer" "Mechanized clicking (+10 gold per click)" 2500 1.2 10 .Click,
    Upgrade.new "Diamond Drill Bit" "Ultimate mining power (+25 gold per click)" 10000 1.2 25 .Click ]

/-- The achievement catalog built in `GameState::default`. -/
def initialAchievements : List Achievement :=
  [ Achievement.new "First Steps" "Earn 100 total gold" (.TotalGold 100),
    Achievement.new "Getting Rich" "Earn 10,000 total gold" (.TotalGold 10000),
    Achievement.new "Millionaire" "Earn 1,000,000 total gold" (.TotalGold 1000000),
    Achievement.new "Passive Income" "Reach 10 gold per second" (.GoldPerSecond 10),
    Achievement.new "Gold Rush" "Reach 100 gold per second" (.GoldPerSecond 100),
    Achievement.new "Click Master" "Click 1,000 times" (.TotalClicks 1000),
    Achievement.new "Power Clicker" "Reach 50 gold per click" (.ClickPower 50),
    Achievement.new "Upgrade Collector" "Purchase 50 upgrades" (.UpgradesPurchased 50) ]

/-- Embeds `GameState::default`, parametrised by the creation instant `t0`
(`Instant::now()` at construction): `last_update = t0`,
`last_click = t0 - 1` second, `click_cooldown = 500 ms`. -/
def GameState.default (t0 : ℚ) : GameState :=
  { gold := 0
    gold_per_second := 0
    click_power := 1
    total_gold_earned := 0
    total_upgrades_purchased := 0
    upgrades := initialUpgrades
    achievements := initialAchievements
    selected_upgrade := 0
    current_tab := .Passive
    last_update := t0
    total_clicks := 0
    show_help := false
    last_click := t0 - 1
    click_cooldown := 1/2 }

/-- Embeds `Instant::duration_since` in seconds: saturates at zero when the
other instant is later. -/
def durationSince (now earlier : ℚ) : ℚ :=
  max (now - earlier) 0

/-- The `current_value` selection of the achievement loop in
`GameState::update`: pick one of the five live aggregates according to the
achievement-type discriminator. -/
def metricOf (tge gps cp : ℚ) (clicks purchases : ℕ) : AchievementType → ℚ
  | .TotalGold _ => tge
  | .GoldPerSecond _ => gps
  | .TotalClicks _ => (clicks : ℚ)
  | .ClickPower _ => cp
  | .UpgradesPurchased _ => (purchases : ℚ)

/-- The per-achievement body of the achievement loop in `GameState::update`:
given the five live aggregates, latch `completed` when the metric selected by
the variant reaches the target. -/
def evalAchievement (tge gps cp : ℚ) (clicks purchases : ℕ) (a : Achievement) : Achievement :=
  let current_value : ℚ := metricOf tge gps cp clicks purchases a.achievement_type
  if a.completed = false ∧ a.target ≤ current_value then
    { a with completed := true }
  else a

/-- Embeds `GameState::update` at instant `now`: clamp `delta ≥ 0`, set
`last_update`, recompute both derived rates, accrue `gold_per_second * delta`
into `gold` and `total_gold_earned`, then run the achievement loop on the
fresh aggregates. -/
def GameState.update (s : GameState) (now : ℚ) : GameState :=
  let delta := durationSince now s.last_update
  let gps : ℚ :=
    ((s.upgrades.filter (fun u => u.upgrade_type = UpgradeType.Passive)).map
      Upgrade.current_production).sum
  let cp : ℚ :=
    1 + ((s.upgrades.filter (fun u => u.upgrade_type = UpgradeType.Click)).map
      Upgrade.current_production).sum
  let gold_earned := gps * delta
  let tge := s.total_gold_earned + gold_earned
  { s with
    last_update := now
    gold_per_second := gps
    click_power := cp
    gold := s.gold + gold_earned
    total_gold_earned := tge
    achievements :=
      s.achievements.map
        (evalAchievement tge gps cp s.total_clicks s.total_upgrades_purchased) }

/-- Embeds `GameState::click_for_gold` at instant `now`: gated by the cooldown. -/
def GameState.click_for_gold (s : GameState) (now : ℚ) : GameState :=
  if s.click_cooldown ≤ durationSince now s.last_click then
    { s with
      gold := s.gold + s.click_power
      total_gold_earned := s.total_gold_earned + s.click_power
      total_clicks := s.total_clicks + 1
      last_click := now }
  else s

/-- Embeds `GameState::get_current_upgrades`: the view-filtered upgrade list. -/
def GameState.get_current_upgrades (s : GameState) : List Upgrade :=
  match s.current_tab with
  | .Passive => s.upgrades.filter (fun u => u.upgrade_type = UpgradeType.Passive)
  | .Click => s.upgrades.filter (fun u => u.upgrade_type = UpgradeType.Click)
  | .Achievements => []

/-- The identity test used by `buy_selected` to map a filtered-list entry back
to the master list: `u.name == upgrade.name && u.upgrade_type == upgrade.upgrade_type`. -/
def upgradeKeyMatch (v u : Upgrade) : Bool :=
  decide (v.name = u.name) && decide (v.upgrade_type = u.upgrade_type)

/-- Embeds `Iterator::position`: index of the first element satisfying `p`. -/
def findPosition (p : α → Bool) : List α → Option ℕ
  | [] => none
  | a :: l => if p a then some 0 else (findPosition p l).map (· + 1)

/-- Embeds `GameState::buy_selected`: no-op on the Achievements tab; otherwise look up
the upgrade at `selected_upgrade` in the filtered list, and if affordable,
resolve it back into the master list by name and kind, purchase it there,
debit the returned cost and count the purchase. -/
def GameState.buy_selected (s : GameState) : GameState :=
  if s.current_tab = Tab.Achievements then s
  else
    match s.get_current_upgrades[s.selected_upgrade]? with
    | none => s
    | some u =>
      if u.can_afford s.gold then
        match findPosition (fun v => upgradeKeyMatch v u) s.upgrades with
        | none => s
        | some i =>
          match s.upgrades[i]? with
          | none => s
          | some w =>
            let p := w.purchase
            { s with
              upgrades := s.upgrades.set i p.2
              gold := s.gold - p.1
              total_upgrades_purchased := s.total_upgrades_purchased + 1 }
      else s

/-- The `max_index` computation of `GameState::select_next`: size of the list
active for the current tab. -/
def GameState.activeCount (s : GameState) : ℕ :=
  match s.current_tab with
  | .Passive => (s.upgrades.filter (fun u => u.upgrade_type = UpgradeType.Passive)).length
  | .Click => (s.upgrades.filter (fun u => u.upgrade_type = UpgradeType.Click)).length
  | .Achievements => s.achievements.length

/-- Embeds `GameState::select_next`: increment `selected_upgrade` unless it is already
at `max_index.saturating_sub(1)` or beyond. -/
def GameState.select_next (s : GameState) : GameState :=
  if s.selected_upgrade < s.activeCount - 1 then
    { s with selected_upgrade := s.selected_upgrade + 1 }
  else s

/-- Embeds `GameState::select_previous`: decrement `selected_upgrade` when positive. -/
def GameState.select_previous (s : GameState) : GameState :=
  if 0 < s.selected_upgrade then
    { s with selected_upgrade := s.selected_upgrade - 1 }
  else s

/-- Embeds `GameState::switch_tab`: switching to a different tab resets the
selection; switching to the same tab is a no-op. -/
def GameState.switch_tab (s : GameState) (tab : Tab) : GameState :=
  if s.current_tab ≠ tab then
    { s with current_tab := tab, selected_upgrade := 0 }
  else s

/-- The engine commands dispatched by the driver loop (`App::on_tick` and
`App::on_key`). -/
inductive Op
  | tick (now : ℚ)
  | click (now : ℚ)
  | buy
  | next
  | prev
  | switch (tab : Tab)
  | toggleHelp

/-- One driver-loop event applied to the state. -/
def stepOp (s : GameState) : Op → GameState
  | .tick now => s.update now
  | .click now => s.click_for_gold now
  | .buy => s.buy_selected
  | .next => s.select_next
  | .prev => s.select_previous
  | .switch tab => s.switch_tab tab
  | .toggleHelp => { s with show_help := !s.show_help }

/-- Run a sequence of driver-loop events. -/
def runOps (s : GameState) (ops : List Op) : GameState :=
  ops.foldl stepOp s

/-- States reachable from some initial state by driver-loop events. -/
inductive Reachable : GameState → Prop
  | init (t0 : ℚ) : Reachable (GameState.default t0)
  | next {s : GameState} (op : Op) : Reachable s → Reachable (stepOp s op)

/-- Embeds `purchase()` iterated `n` times, collecting the returned costs. -/
def purchaseN (u : Upgrade) : ℕ → List ℚ × Upgrade
  | 0 => ([], u)
  | n + 1 =>
    let r := purchaseN u n
    let p := r.2.purchase
    (r.1 ++ [p.1], p.2)

/-- A concrete catalog upgrade, used to instantiate universally quantified
theorems on concrete data. -/
def demoUpgrade : Upgrade :=
  Upgrade.new "Pickaxe" "Basic mining tool (+0.1 gold/sec)" 10 1.15 0.1 .Passive

/-- The state in the spec's tick scenario: a single Passive upgrade with
`base_production = 0.1` and `owned = 5`, clock at `0`. -/
def scenarioTickState : GameState :=
  { GameState.default 0 with upgrades := [{ demoUpgrade with owned := 5 }] }

/-- The state in the spec's purchase scenario: the fresh game with exactly
enough gold for the first Pickaxe (cost `10`). -/
def scenarioBuyState : GameState :=
  { GameState.default 0 with gold := 10 }

/-- The identity of an upgrade as used by `buy_selected`'s master-list
resolution: its name together with its kind. -/
def upgradeKey (u : Upgrade) : String × UpgradeType :=
  (u.name, u.upgrade_type)

/-- The live metric that `GameState::update` compares against an
achievement's target, selected by the achievement's discriminator, read off
the freshly updated state. -/
def achievementMetric (s : GameState) (a : Achievement) : ℚ :=
  metricOf s.total_gold_earned s.gold_per_second s.click_power
    s.total_clicks s.total_upgrades_purchased a.achievement_type

/-- The state after the spec's purchase scenario: the first Pickaxe bought,
all gold spent. -/
def scenarioBoughtState : GameState :=
  { scenarioBuyState with
    gold := 0
    upgrades := initialUpgrades.set 0 { demoUpgrade with owned := 1 }
    total_upgrades_purchased := 1 }

/-- The state invariant maintained by every engine operation: non-negative
gold and click power, non-negative production parameters, master-list
identities pairwise distinct, all three view lists non-empty, and a valid
selection index for the active view. -/
def Inv (s : GameState) : Prop :=
  0 ≤ s.gold ∧
  0 ≤ s.click_power ∧
  (∀ u ∈ s.upgrades, 0 ≤ u.base_production) ∧
  (s.upgrades.map upgradeKey).Nodup ∧
  0 < (s.upgrades.filter (fun u => u.upgrade_type = UpgradeType.Passive)).length ∧
  0 < (s.upgrades.filter (fun u => u.upgrade_type = UpgradeType.Click)).length ∧
  0 < s.achievements.length ∧
  s.selected_upgrade < s.activeCount

lemma purchaseN_closed (u : Upgrade) (n : ℕ) :
    purchaseN u n =
      ((List.range n).map (fun k => u.base_cost * u.cost_multiplier ^ (u.owned + k)),
        { u with owned := u.owned + n }) := by
  induction n with
  | zero => simp [purchaseN]
  | succ n ih =>
    simp only [purchaseN, ih, List.range_succ, List.map_append, List.map_cons, List.map_nil]
    rfl

lemma sum_geom_list (b x : ℚ) (hx : x ≠ 1) (n : ℕ) :
    ((List.range n).map (fun k => b * x ^ k)).sum = b * (x ^ n - 1) / (x - 1) := by
  induction n with
  | zero => simp
  | succ n ih =>
    rw [List.range_succ, List.map_append, List.sum_append, ih]
    have hx1 : x - 1 ≠ 0 := sub_ne_zero.mpr hx
    field_simp
    ring

/-- Claim C1: `update` sets `last_update := now`, recomputes `gold_per_second`
as the sum of `current_production` over Passive upgrades and `click_power` as
`1 +` the sum over Click upgrades, and adds `gold_per_second * delta` (with
`delta = durationSince now last_update`, clamped `≥ 0`) to both `gold` and
`total_gold_earned`; in the scenario of one Passive upgrade with
`base_production = 0.1` and `owned = 5`, a tick with `delta = 2` adds exactly
`1` gold. -/
theorem update_tick_spec :
    (∀ (s : GameState) (now : ℚ),
      (s.update now).last_update = now ∧
      (s.update now).gold_per_second =
        ((s.upgrades.filter (fun u => u.upgrade_type = UpgradeType.Passive)).map
          Upgrade.current_production).sum ∧
      (s.update now).click_power =
        1 + ((s.upgrades.filter (fun u => u.upgrade_type = UpgradeType.Click)).map
          Upgrade.current_production).sum ∧
      (s.update now).gold =
        s.gold + (s.update now).gold_per_second * durationSince now s.last_update ∧
      (s.update now).total_gold_earned =
        s.total_gold_earned + (s.update now).gold_per_second * durationSince now s.last_update) ∧
    (scenarioTickState.update 2).gold = scenarioTickState.gold + 1 := by
  refine ⟨fun s now => ⟨rfl, rfl, rfl, rfl, rfl⟩, ?_⟩
  show (scenarioTickState.update 2).gold = scenarioTickState.gold + 1
  norm_num [GameState.update, scenarioTickState, GameState.default, demoUpgrade, Upgrade.new,
    Upgrade.current_production, durationSince, List.filter, max_def]

/-- Claim C6: `current_cost = base_cost * cost_multiplier ^ owned`; for the
data-model-valid upgrades (positive base cost) the cost is strictly
increasing in `owned` whenever `cost_multiplier > 1`; every catalog upgrade
has positive base cost and multiplier `1.15` or `1.2`. -/
theorem current_cost_formula_strict_mono :
    (∀ u : Upgrade, u.current_cost = u.base_cost * u.cost_multiplier ^ u.owned) ∧
    (∀ (u : Upgrade) (n m : ℕ), 0 < u.base_cost → 1 < u.cost_multiplier → n < m →
      ({ u with owned := n } : Upgrade).current_cost <
        ({ u with owned := m } : Upgrade).current_cost) ∧
    (∀ u ∈ initialUpgrades,
      0 < u.base_cost ∧ (u.cost_multiplier = 1.15 ∨ u.cost_multiplier = 1.2)) := by
  refine ⟨fun u => rfl, fun u n m hb hm hnm => ?_, fun u hu => ?_⟩
  · simpa [Upgrade.current_cost] using
      mul_lt_mul_of_pos_left (pow_lt_pow_right₀ hm hnm) hb
  · simp only [initialUpgrades, List.mem_cons, List.not_mem_nil, or_false] at hu
    rcases hu with h | h | h | h | h | h | h | h | h | h | h <;> subst h <;>
      norm_num [Upgrade.new]

/-- Witness for claim C6 at the catalog's first upgrade, `n = 0 < m = 1`. -/
theorem current_cost_formula_strict_mono_witness :
    0 < demoUpgrade.base_cost ∧ 1 < demoUpgrade.cost_multiplier ∧ (0 : ℕ) < 1 ∧
      ({ demoUpgrade with owned := 0 } : Upgrade).current_cost <
        ({ demoUpgrade with owned := 1 } : Upgrade).current_cost :=
  ⟨by norm_num [demoUpgrade, Upgrade.new], by norm_num [demoUpgrade, Upgrade.new], by decide,
    current_cost_formula_strict_mono.2.1 demoUpgrade 0 1
      (by norm_num [demoUpgrade, Upgrade.new]) (by norm_num [demoUpgrade, Upgrade.new])
      (by decide)⟩

/-- Claim C7: Iterating `purchase()` `n` times from `owned = 0` yields
`owned = n`; the `(k+1)`-th call returns `base_cost * multiplier ^ k`; the
returned costs sum to the geometric total
`base_cost * (multiplier ^ n - 1) / (multiplier - 1)` (the data model has
`multiplier > 1`, so `multiplier ≠ 1`); and `purchase` itself unconditionally
increments `owned` and returns the prior cost, with no affordability check. -/
theorem purchase_iteration_spec (u : Upgrade) (h0 : u.owned = 0)
    (hm : u.cost_multiplier ≠ 1) (n : ℕ) :
    ((purchaseN u n).2.owned = n) ∧
    (∀ k < n, (purchaseN u n).1.get? k = some (u.base_cost * u.cost_multiplier ^ k)) ∧
    ((purchaseN u n).1.sum =
      u.base_cost * (u.cost_multiplier ^ n - 1) / (u.cost_multiplier - 1)) ∧
    (∀ v : Upgrade, (v.purchase).2.owned = v.owned + 1 ∧ (v.purchase).1 = v.current_cost) := by
  rw [purchaseN_closed]
  refine ⟨by simp [h0], fun k hk => ?_, ?_, fun v => ⟨rfl, rfl⟩⟩
  · simp [h0, List.get?_eq_getElem?, List.getElem?_map, List.getElem?_range hk]
  · simp only [h0, Nat.zero_add]
    exact sum_geom_list u.base_cost u.cost_multiplier hm n

/-- Witness for claim C7 at the catalog's first upgrade with `n = 2`. -/
theorem purchase_iteration_spec_witness :
    demoUpgrade.owned = 0 ∧ demoUpgrade.cost_multiplier ≠ 1 ∧
    (((purchaseN demoUpgrade 2).2.owned = 2) ∧
      (∀ k < 2, (purchaseN demoUpgrade 2).1.get? k =
        some (demoUpgrade.base_cost * demoUpgrade.cost_multiplier ^ k)) ∧
      ((purchaseN demoUpgrade 2).1.sum =
        demoUpgrade.base_cost * (demoUpgrade.cost_multiplier ^ 2 - 1) /
          (demoUpgrade.cost_multiplier - 1)) ∧
      (∀ v : Upgrade, (v.purchase).2.owned = v.owned + 1 ∧ (v.purchase).1 = v.current_cost)) :=
  ⟨rfl, by norm_num [demoUpgrade, Upgrade.new],
    purchase_iteration_spec demoUpgrade rfl (by norm_num [demoUpgrade, Upgrade.new]) 2⟩

lemma findPosition_some {p : α → Bool} {l : List α} {i : ℕ}
    (h : findPosition p l = some i) : ∃ a, l[i]? = some a ∧ p a = true := by
  induction l generalizing i with
  | nil => simp [findPosition] at h
  | cons a l ih =>
    rw [findPosition] at h
    by_cases hpa : p a
    · rw [if_pos hpa] at h
      cases h
      exact ⟨a, by simp, hpa⟩
    · rw [if_neg hpa, Option.map_eq_some'] at h
      obtain ⟨j, hj, rfl⟩ := h
      obtain ⟨b, hb, hpb⟩ := ih hj
      exact ⟨b, by simpa using hb, hpb⟩

lemma findPosition_of_mem (p : α → Bool) {l : List α} {a : α}
    (ha : a ∈ l) (hp : p a = true) : ∃ i, findPosition p l = some i := by
  induction l with
  | nil => cases ha
  | cons b l ih =>
    rw [findPosition]
    by_cases hpb : p b
    · exact ⟨0, by rw [if_pos hpb]⟩
    · rcases List.mem_cons.mp ha with rfl | ha2
      · exact absurd hp hpb
      · obtain ⟨i, hi⟩ := ih ha2
        exact ⟨i + 1, by rw [if_neg hpb, hi]; rfl⟩

lemma set_self_of_getElem {l : List α} {i : ℕ} {a : α} (h : l[i]? = some a) :
    l.set i a = l := by
  induction l generalizing i with
  | nil => simp at h
  | cons b l ih =>
    cases i with
    | zero =>
      simp only [List.getElem?_cons_zero, Option.some.injEq] at h
      subst h
      rfl
    | succ i =>
      simp only [List.getElem?_cons_succ] at h
      simp only [List.set_cons_succ, List.cons.injEq, true_and]
      exact ih h

lemma length_filter_set {l : List α} {p : α → Bool} {i : ℕ} {w w' : α}
    (h : l[i]? = some w) (hp : p w' = p w) :
    ((l.set i w').filter p).length = (l.filter p).length := by
  induction l generalizing i with
  | nil => simp at h
  | cons b l ih =>
    cases i with
    | zero =>
      simp only [List.getElem?_cons_zero, Option.some.injEq] at h
      subst h
      simp only [List.set_cons_zero, List.filter_cons, hp]
      cases hpb : p b <;> simp [hpb]
    | succ i =>
      simp only [List.getElem?_cons_succ] at h
      simp only [List.set_cons_succ, List.filter_cons]
      cases hpb : p b <;> simp [hpb, ih h]

lemma eq_of_key_eq {f : α → β} {l : List α} (hnd : (l.map f).Nodup)
    {i : ℕ} {w a : α} (hw : l[i]? = some w) (ha : a ∈ l) (hf : f w = f a) : w = a := by
  obtain ⟨j, hj, rfl⟩ := List.mem_iff_getElem.mp ha
  obtain ⟨hi, rfl⟩ := List.getElem?_eq_some_iff.mp hw
  have hi2 : i < (l.map f).length := by simpa using hi
  have hj2 : j < (l.map f).length := by simpa using hj
  have hmap : (l.map f).get ⟨i, hi2⟩ = (l.map f).get ⟨j, hj2⟩ := by
    rw [List.get_map, List.get_map]
    exact hf
  have hij : i = j := congrArg Fin.val ((List.Nodup.get_inj_iff hnd).mp hmap)
  subst hij
  rfl

lemma upgradeKeyMatch_iff {v u : Upgrade} :
    upgradeKeyMatch v u = true ↔ upgradeKey v = upgradeKey u := by
  simp [upgradeKeyMatch, upgradeKey, Prod.ext_iff]

lemma mem_upgrades_of_mem_current {s : GameState} {u : Upgrade}
    (h : u ∈ s.get_current_upgrades) : u ∈ s.upgrades := by
  cases htab : s.current_tab <;>
    simp only [GameState.get_current_upgrades, htab] at h
  · exact (List.mem_filter.mp h).1
  · exact (List.mem_filter.mp h).1
  · cases h

/-- Characterisation of `buy_selected` for states with pairwise-distinct
upgrade identities: it either leaves the state unchanged, or increments the
selected upgrade's `owned` in place, debits its prior cost, and counts the
purchase. -/
lemma buy_selected_eq (s : GameState) (hnd : (s.upgrades.map upgradeKey).Nodup) :
    s.buy_selected = s ∨
    ∃ i u, s.upgrades[i]? = some u ∧
      s.get_current_upgrades[s.selected_upgrade]? = some u ∧
      u.can_afford s.gold = true ∧
      s.buy_selected = { s with
        upgrades := s.upgrades.set i { u with owned := u.owned + 1 }
        gold := s.gold - u.current_cost
        total_upgrades_purchased := s.total_upgrades_purchased + 1 } := by
  by_cases ht : s.current_tab = Tab.Achievements
  · left
    simp [GameState.buy_selected, ht]
  cases hg : s.get_current_upgrades[s.selected_upgrade]? with
  | none =>
    left
    simp [GameState.buy_selected, ht, hg]
  | some u =>
    cases hca : u.can_afford s.gold with
    | false =>
      left
      simp [GameState.buy_selected, ht, hg, hca]
    | true =>
      have humem : u ∈ s.upgrades :=
        mem_upgrades_of_mem_current (List.getElem?_mem hg)
      have hpu : upgradeKeyMatch u u = true := upgradeKeyMatch_iff.mpr rfl
      obtain ⟨i, hi⟩ := findPosition_of_mem (fun v => upgradeKeyMatch v u) humem hpu
      obtain ⟨w, hw, hpw⟩ := findPosition_some hi
      have hw_eq : w = u := eq_of_key_eq hnd hw humem (upgradeKeyMatch_iff.mp hpw)
      subst hw_eq
      right
      refine ⟨i, w, hw, rfl, hca, ?_⟩
      simp [GameState.buy_selected, ht, hg, hca, hi, hw, Upgrade.purchase]

lemma production_sum_nonneg {l : List Upgrade} (h : ∀ u ∈ l, 0 ≤ u.base_production)
    (p : Upgrade → Bool) :
    0 ≤ ((l.filter p).map Upgrade.current_production).sum := by
  apply List.sum_nonneg
  intro x hx
  obtain ⟨u, hu, rfl⟩ := List.mem_map.mp hx
  exact mul_nonneg (h u (List.mem_filter.mp hu).1) (Nat.cast_nonneg _)

lemma activeCount_congr {s s2 : GameState} (htab : s2.current_tab = s.current_tab)
    (hP : (s2.upgrades.filter (fun u => u.upgrade_type = UpgradeType.Passive)).length =
      (s.upgrades.filter (fun u => u.upgrade_type = UpgradeType.Passive)).length)
    (hC : (s2.upgrades.filter (fun u => u.upgrade_type = UpgradeType.Click)).length =
      (s.upgrades.filter (fun u => u.upgrade_type = UpgradeType.Click)).length)
    (hA : s2.achievements.length = s.achievements.length) :
    s2.activeCount = s.activeCount := by
  cases h : s.current_tab <;>
    simp only [GameState.activeCount, htab, h, hP, hC, hA]

lemma Inv_of_fields {s2 s : GameState} (h : Inv s)
    (hg : 0 ≤ s2.gold) (hcp : 0 ≤ s2.click_power)
    (hu : s2.upgrades = s.upgrades) (hach : s2.achievements.length = s.achievements.length)
    (htab : s2.current_tab = s.current_tab) (hselu : s2.selected_upgrade = s.selected_upgrade) :
    Inv s2 := by
  obtain ⟨_, _, hbp, hnd, hP, hC, hA, hsel⟩ := h
  refine ⟨hg, hcp, ?_, ?_, ?_, ?_, ?_, ?_⟩
  · rw [hu]; exact hbp
  · rw [hu]; exact hnd
  · rw [hu]; exact hP
  · rw [hu]; exact hC
  · rw [hach]; exact hA
  · rw [hselu, activeCount_congr htab (by rw [hu]) (by rw [hu]) hach]
    exact hsel

lemma Inv_default (t0 : ℚ) : Inv (GameState.default t0) := by
  refine ⟨le_refl 0, zero_le_one, ?_,
    show (initialUpgrades.map upgradeKey).Nodup by decide,
    show 0 < (initialUpgrades.filter
      (fun u => u.upgrade_type = UpgradeType.Passive)).length by decide,
    show 0 < (initialUpgrades.filter
      (fun u => u.upgrade_type = UpgradeType.Click)).length by decide,
    show 0 < initialAchievements.length by decide,
    show 0 < (initialUpgrades.filter
      (fun u => u.upgrade_type = UpgradeType.Passive)).length by decide⟩
  intro u hu
  simp only [GameState.default, initialUpgrades, List.mem_cons, List.not_mem_nil,
    or_false] at hu
  rcases hu with h | h | h | h | h | h | h | h | h | h | h <;> subst h <;>
    norm_num [Upgrade.new]

lemma Inv_update {s : GameState} (h : Inv s) (now : ℚ) : Inv (s.update now) := by
  have hbp := h.2.2.1
  refine Inv_of_fields h ?_ ?_ rfl (by simp [GameState.update]) rfl rfl
  · exact add_nonneg h.1 (mul_nonneg (production_sum_nonneg hbp _) (le_max_right _ _))
  · exact add_nonneg zero_le_one (production_sum_nonneg hbp _)

lemma Inv_click {s : GameState} (h : Inv s) (now : ℚ) : Inv (s.click_for_gold now) := by
  rw [GameState.click_for_gold]
  by_cases hc : s.click_cooldown ≤ durationSince now s.last_click
  · rw [if_pos hc]
    exact Inv_of_fields h (add_nonneg h.1 h.2.1) h.2.1 rfl rfl rfl rfl
  · rw [if_neg hc]
    exact h

lemma Inv_buy {s : GameState} (h : Inv s) : Inv s.buy_selected := by
  obtain ⟨hg, hcp, hbp, hnd, hP, hC, hA, hsel⟩ := h
  rcases buy_selected_eq s hnd with heq | ⟨i, u, hu, hgcur, hca, heq⟩
  · rw [heq]
    exact ⟨hg, hcp, hbp, hnd, hP, hC, hA, hsel⟩
  · rw [heq]
    have hmapget : (s.upgrades.map upgradeKey)[i]? = some (upgradeKey u) := by
      simp [List.getElem?_map, hu]
    have hkey2 : upgradeKey { u with owned := u.owned + 1 } = upgradeKey u := rfl
    have hPf : ((s.upgrades.set i { u with owned := u.owned + 1 }).filter
        (fun v => v.upgrade_type = UpgradeType.Passive)).length =
        (s.upgrades.filter (fun v => v.upgrade_type = UpgradeType.Passive)).length :=
      length_filter_set hu rfl
    have hCf : ((s.upgrades.set i { u with owned := u.owned + 1 }).filter
        (fun v => v.upgrade_type = UpgradeType.Click)).length =
        (s.upgrades.filter (fun v => v.upgrade_type = UpgradeType.Click)).length :=
      length_filter_set hu rfl
    refine ⟨?_, hcp, ?_, ?_, ?_, ?_, hA, ?_⟩
    · exact sub_nonneg.mpr (of_decide_eq_true hca)
    · intro v hv
      rcases List.mem_or_eq_of_mem_set hv with hvl | rfl
      · exact hbp v hvl
      · exact hbp u (List.getElem?_mem hu)
    · show ((s.upgrades.set i { u with owned := u.owned + 1 }).map upgradeKey).Nodup
      rw [List.map_set, hkey2, set_self_of_getElem hmapget]
      exact hnd
    · show 0 < ((s.upgrades.set i { u with owned := u.owned + 1 }).filter
        (fun v => v.upgrade_type = UpgradeType.Passive)).length
      rw [hPf]
      exact hP
    · show 0 < ((s.upgrades.set i { u with owned := u.owned + 1 }).filter
        (fun v => v.upgrade_type = UpgradeType.Click)).length
      rw [hCf]
      exact hC
    · refine lt_of_lt_of_eq hsel (Eq.symm ?_)
      exact activeCount_congr rfl hPf hCf rfl

lemma Inv_next {s : GameState} (h : Inv s) : Inv s.select_next := by
  obtain ⟨hg, hcp, hbp, hnd, hP, hC, hA, hsel⟩ := h
  rw [GameState.select_next]
  by_cases hlt : s.selected_upgrade < s.activeCount - 1
  · rw [if_pos hlt]
    refine ⟨hg, hcp, hbp, hnd, hP, hC, hA, ?_⟩
    have hac : ({ s with selected_upgrade := s.selected_upgrade + 1 } : GameState).activeCount
        = s.activeCount := activeCount_congr rfl rfl rfl rfl
    exact lt_of_lt_of_eq (show s.selected_upgrade + 1 < s.activeCount by omega) hac.symm
  · rw [if_neg hlt]
    exact ⟨hg, hcp, hbp, hnd, hP, hC, hA, hsel⟩

lemma Inv_prev {s : GameState} (h : Inv s) : Inv s.select_previous := by
  obtain ⟨hg, hcp, hbp, hnd, hP, hC, hA, hsel⟩ := h
  rw [GameState.select_previous]
  by_cases hpos : 0 < s.selected_upgrade
  · rw [if_pos hpos]
    refine ⟨hg, hcp, hbp, hnd, hP, hC, hA, ?_⟩
    have hac : ({ s with selected_upgrade := s.selected_upgrade - 1 } : GameState).activeCount
        = s.activeCount := activeCount_congr rfl rfl rfl rfl
    exact lt_of_lt_of_eq (show s.selected_upgrade - 1 < s.activeCount by omega) hac.symm
  · rw [if_neg hpos]
    exact ⟨hg, hcp, hbp, hnd, hP, hC, hA, hsel⟩

lemma Inv_switch {s : GameState} (h : Inv s) (tab : Tab) : Inv (s.switch_tab tab) := by
  obtain ⟨hg, hcp, hbp, hnd, hP, hC, hA, hsel⟩ := h
  rw [GameState.switch_tab]
  by_cases hne : s.current_tab ≠ tab
  · rw [if_pos hne]
    refine ⟨hg, hcp, hbp, hnd, hP, hC, hA, ?_⟩
    cases tab
    · exact hP
    · exact hC
    · exact hA
  · rw [if_neg hne]
    exact ⟨hg, hcp, hbp, hnd, hP, hC, hA, hsel⟩

lemma Inv_step {s : GameState} (h : Inv s) : ∀ op, Inv (stepOp s op)
  | .tick now => Inv_update h now
  | .click now => Inv_click h now
  | .buy => Inv_buy h
  | .next => Inv_next h
  | .prev => Inv_prev h
  | .switch tab => Inv_switch h tab
  | .toggleHelp => Inv_of_fields h h.1 h.2.1 rfl rfl rfl rfl

lemma Inv_reachable {s : GameState} (h : Reachable s) : Inv s := by
  induction h with
  | init t0 => exact Inv_default t0
  | next op _ ih => exact Inv_step ih op

lemma reachable_runOps {s : GameState} (h : Reachable s) (ops : List Op) :
    Reachable (runOps s ops) := by
  induction ops generalizing s with
  | nil => exact h
  | cons op ops ih => exact ih (Reachable.next op h)

lemma click_effective {s : GameState} {now : ℚ}
    (h : s.click_cooldown ≤ durationSince now s.last_click) :
    s.click_for_gold now = { s with
      gold := s.gold + s.click_power
      total_gold_earned := s.total_gold_earned + s.click_power
      total_clicks := s.total_clicks + 1
      last_click := now } := by
  rw [GameState.click_for_gold, if_pos h]

lemma click_blocked {s : GameState} {now : ℚ}
    (h : durationSince now s.last_click < s.click_cooldown) :
    s.click_for_gold now = s := by
  rw [GameState.click_for_gold, if_neg (not_le.mpr h)]

lemma buy_noop_achievements {s : GameState} (ht : s.current_tab = Tab.Achievements) :
    s.buy_selected = s := by
  simp [GameState.buy_selected, ht]

lemma buy_noop_oob {s : GameState}
    (hg : s.get_current_upgrades[s.selected_upgrade]? = none) : s.buy_selected = s := by
  by_cases ht : s.current_tab = Tab.Achievements
  · simp [GameState.buy_selected, ht]
  · simp [GameState.buy_selected, ht, hg]

lemma buy_noop_unaffordable {s : GameState} {u : Upgrade}
    (hg : s.get_current_upgrades[s.selected_upgrade]? = some u)
    (hca : u.can_afford s.gold = false) : s.buy_selected = s := by
  by_cases ht : s.current_tab = Tab.Achievements
  · simp [GameState.buy_selected, ht]
  · simp [GameState.buy_selected, ht, hg, hca]

lemma buy_step {s : GameState} {u : Upgrade} {i : ℕ}
    (ht : ¬ s.current_tab = Tab.Achievements)
    (hg : s.get_current_upgrades[s.selected_upgrade]? = some u)
    (hca : u.can_afford s.gold = true)
    (hi : findPosition (fun v => upgradeKeyMatch v u) s.upgrades = some i)
    (hw : s.upgrades[i]? = some u) :
    s.buy_selected = { s with
      upgrades := s.upgrades.set i { u with owned := u.owned + 1 }
      gold := s.gold - u.current_cost
      total_upgrades_purchased := s.total_upgrades_purchased + 1 } := by
  simp [GameState.buy_selected, ht, hg, hca, hi, hw, Upgrade.purchase]

lemma evalAchievement_completed_iff (tge gps cp : ℚ) (clicks purchases : ℕ) (a : Achievement) :
    ((evalAchievement tge gps cp clicks purchases a).completed = true ↔
      (a.completed = true ∨ a.target ≤ metricOf tge gps cp clicks purchases a.achievement_type)) := by
  rw [evalAchievement]
  cases hc : a.completed <;>
    by_cases h2 : a.target ≤ metricOf tge gps cp clicks purchases a.achievement_type <;>
    simp [hc, h2]

lemma evalAchievement_fields (tge gps cp : ℚ) (clicks purchases : ℕ) (a : Achievement) :
    (evalAchievement tge gps cp clicks purchases a).achievement_type = a.achievement_type ∧
    (evalAchievement tge gps cp clicks purchases a).target = a.target ∧
    (evalAchievement tge gps cp clicks purchases a).name = a.name := by
  refine ⟨?_, ?_, ?_⟩ <;> rw [evalAchievement] <;> split <;> rfl

lemma select_next_fields (s : GameState) :
    s.select_next.gold = s.gold ∧
    s.select_next.total_gold_earned = s.total_gold_earned ∧
    s.select_next.total_upgrades_purchased = s.total_upgrades_purchased := by
  rw [GameState.select_next]
  split <;> exact ⟨rfl, rfl, rfl⟩

lemma select_previous_fields (s : GameState) :
    s.select_previous.gold = s.gold ∧
    s.select_previous.total_gold_earned = s.total_gold_earned ∧
    s.select_previous.total_upgrades_purchased = s.total_upgrades_purchased := by
  rw [GameState.select_previous]
  split <;> exact ⟨rfl, rfl, rfl⟩

lemma switch_tab_fields (s : GameState) (tab : Tab) :
    (s.switch_tab tab).gold = s.gold ∧
    (s.switch_tab tab).total_gold_earned = s.total_gold_earned ∧
    (s.switch_tab tab).total_upgrades_purchased = s.total_upgrades_purchased := by
  rw [GameState.switch_tab]
  split <;> exact ⟨rfl, rfl, rfl⟩

/-- Claim C2: Starting from the initial state, after any sequence of
driver-loop events (ticks, clicks, purchases, selection moves, tab switches)
the gold balance is non-negative. -/
theorem gold_nonneg_invariant (t0 : ℚ) (ops : List Op) :
    0 ≤ (runOps (GameState.default t0) ops).gold :=
  (Inv_reachable (reachable_runOps (Reachable.init t0) ops)).1

/-- Claim C3: Achievement `completed` flags are a monotonic latch across a
tick: the achievement at index `i` keeps its identity, its `completed` flag
never reverts from `true`, and after the tick it is `true` exactly when it
already was or the metric selected by its discriminator (evaluated on the
freshly updated aggregates) has reached its target. -/
theorem achievement_latch (s : GameState) (now : ℚ) (i : ℕ) (a : Achievement)
    (ha : s.achievements[i]? = some a) :
    ∃ a2 : Achievement, (s.update now).achievements[i]? = some a2 ∧
      a2.achievement_type = a.achievement_type ∧
      a2.target = a.target ∧
      (a.completed = true → a2.completed = true) ∧
      (a2.completed = true ↔
        (a.completed = true ∨ a.target ≤ achievementMetric (s.update now) a)) := by
  have hach : (s.update now).achievements = s.achievements.map
      (evalAchievement (s.update now).total_gold_earned (s.update now).gold_per_second
        (s.update now).click_power s.total_clicks s.total_upgrades_purchased) := rfl
  refine ⟨evalAchievement (s.update now).total_gold_earned (s.update now).gold_per_second
    (s.update now).click_power s.total_clicks s.total_upgrades_purchased a, ?_, ?_, ?_, ?_, ?_⟩
  · rw [hach, List.getElem?_map, ha]
    rfl
  · exact (evalAchievement_fields _ _ _ _ _ a).1
  · exact (evalAchievement_fields _ _ _ _ _ a).2.1
  · intro hc
    exact (evalAchievement_completed_iff _ _ _ _ _ a).mpr (Or.inl hc)
  · exact evalAchievement_completed_iff _ _ _ _ _ a

/-- Witness for claim C3 at the fresh game's first achievement and a tick at
time `1`. -/
theorem achievement_latch_witness :
    (GameState.default 0).achievements[0]? =
      some (Achievement.new "First Steps" "Earn 100 total gold" (.TotalGold 100)) ∧
    ∃ a2 : Achievement, ((GameState.default 0).update 1).achievements[0]? = some a2 ∧
      a2.achievement_type =
        (Achievement.new "First Steps" "Earn 100 total gold" (.TotalGold 100)).achievement_type ∧
      a2.target = (Achievement.new "First Steps" "Earn 100 total gold" (.TotalGold 100)).target ∧
      ((Achievement.new "First Steps" "Earn 100 total gold" (.TotalGold 100)).completed = true →
        a2.completed = true) ∧
      (a2.completed = true ↔
        ((Achievement.new "First Steps" "Earn 100 total gold" (.TotalGold 100)).completed = true ∨
          (Achievement.new "First Steps" "Earn 100 total gold" (.TotalGold 100)).target ≤
            achievementMetric ((GameState.default 0).update 1)
              (Achievement.new "First Steps" "Earn 100 total gold" (.TotalGold 100)))) :=
  ⟨rfl, achievement_latch (GameState.default 0) 1 0
    (Achievement.new "First Steps" "Earn 100 total gold" (.TotalGold 100)) rfl⟩

/-- Claim C4: The click operation is cooldown-gated: when the time since
`last_click` has reached `click_cooldown` it adds `click_power` to `gold` and
`total_gold_earned`, increments `total_clicks` and stamps `last_click`;
otherwise it is a no-op.  Consequently two clicks whose instants are
separated by less than the cooldown (the first one effective) increment
`total_clicks` once and `gold` by one `click_power`, while separation of at
least the cooldown yields two increments of each. -/
theorem click_cooldown_spec :
    (∀ (s : GameState) (now : ℚ),
      (s.click_cooldown ≤ durationSince now s.last_click →
        s.click_for_gold now = { s with
          gold := s.gold + s.click_power
          total_gold_earned := s.total_gold_earned + s.click_power
          total_clicks := s.total_clicks + 1
          last_click := now }) ∧
      (durationSince now s.last_click < s.click_cooldown →
        s.click_for_gold now = s)) ∧
    (∀ (s : GameState) (t1 t2 : ℚ),
      s.click_cooldown ≤ durationSince t1 s.last_click → t1 ≤ t2 →
      t2 - t1 < s.click_cooldown →
      ((s.click_for_gold t1).click_for_gold t2).total_clicks = s.total_clicks + 1 ∧
      ((s.click_for_gold t1).click_for_gold t2).gold = s.gold + s.click_power) ∧
    (∀ (s : GameState) (t1 t2 : ℚ),
      s.click_cooldown ≤ durationSince t1 s.last_click → t1 ≤ t2 →
      s.click_cooldown ≤ t2 - t1 →
      ((s.click_for_gold t1).click_for_gold t2).total_clicks = s.total_clicks + 2 ∧
      ((s.click_for_gold t1).click_for_gold t2).gold = s.gold + s.click_power + s.click_power) := by
  refine ⟨fun s now => ⟨fun h => click_effective h, fun h => click_blocked h⟩,
    fun s t1 t2 h1 h12 h3 => ?_, fun s t1 t2 h1 h12 h3 => ?_⟩
  · have h2eq : (s.click_for_gold t1).click_for_gold t2 = s.click_for_gold t1 := by
      apply click_blocked
      rw [click_effective h1]
      show durationSince t2 t1 < s.click_cooldown
      rw [durationSince, max_eq_left (sub_nonneg.mpr h12)]
      exact h3
    rw [h2eq, click_effective h1]
    exact ⟨rfl, rfl⟩
  · have hdur2 : (s.click_for_gold t1).click_cooldown ≤
        durationSince t2 (s.click_for_gold t1).last_click := by
      rw [click_effective h1]
      show s.click_cooldown ≤ durationSince t2 t1
      rw [durationSince, max_eq_left (sub_nonneg.mpr h12)]
      exact h3
    rw [click_effective hdur2, click_effective h1]
    exact ⟨rfl, rfl⟩

/-- Witness for claim C4 on the fresh game: a first click at `0`, a blocked
second click at `1/4`, and an effective second click at `1`. -/
theorem click_cooldown_spec_witness :
    ((GameState.default 0).click_cooldown ≤ durationSince 0 (GameState.default 0).last_click) ∧
    ((0:ℚ) ≤ 1/4) ∧ ((1/4:ℚ) - 0 < (GameState.default 0).click_cooldown) ∧
    ((((GameState.default 0).click_for_gold 0).click_for_gold (1/4)).total_clicks =
      (GameState.default 0).total_clicks + 1) ∧
    ((0:ℚ) ≤ 1) ∧ ((GameState.default 0).click_cooldown ≤ (1:ℚ) - 0) ∧
    ((((GameState.default 0).click_for_gold 0).click_for_gold 1).total_clicks =
      (GameState.default 0).total_clicks + 2) := by
  have hcool : (GameState.default 0).click_cooldown ≤
      durationSince 0 (GameState.default 0).last_click := by
    show (1:ℚ)/2 ≤ max (0 - (0 - 1)) 0
    norm_num
  have hlt : (1/4:ℚ) - 0 < (GameState.default 0).click_cooldown := by
    show (1/4:ℚ) - 0 < 1/2
    norm_num
  have hge : (GameState.default 0).click_cooldown ≤ (1:ℚ) - 0 := by
    show (1:ℚ)/2 ≤ 1 - 0
    norm_num
  exact ⟨hcool, by norm_num, hlt,
    (click_cooldown_spec.2.1 _ 0 (1/4) hcool (by norm_num) hlt).1,
    by norm_num, hge,
    (click_cooldown_spec.2.2 _ 0 1 hcool (by norm_num) hge).1⟩

/-- Claim C5: `buy_selected` is a no-op on the Achievements tab, when the
selection does not index the filtered list, and when the selected upgrade is
unaffordable; otherwise (for states with pairwise-distinct upgrade
identities, as all reachable states have) it resolves the selected filtered
entry back to the master list by identity, increments its `owned`, debits the
prior cost and counts the purchase.  Scenario: buying the `10`-cost Pickaxe
from `gold = 10` leaves `gold = 0`, `owned = 1`, one purchase counted, and an
immediate second purchase attempt changes nothing. -/
theorem buy_selected_spec :
    (∀ s : GameState, s.current_tab = Tab.Achievements → s.buy_selected = s) ∧
    (∀ s : GameState,
      s.get_current_upgrades[s.selected_upgrade]? = none → s.buy_selected = s) ∧
    (∀ (s : GameState) (u : Upgrade),
      s.get_current_upgrades[s.selected_upgrade]? = some u →
      u.can_afford s.gold = false → s.buy_selected = s) ∧
    (∀ (s : GameState) (u : Upgrade), (s.upgrades.map upgradeKey).Nodup →
      s.get_current_upgrades[s.selected_upgrade]? = some u →
      u.can_afford s.gold = true →
      ∃ i, s.upgrades[i]? = some u ∧
        s.buy_selected = { s with
          upgrades := s.upgrades.set i { u with owned := u.owned + 1 }
          gold := s.gold - u.current_cost
          total_upgrades_purchased := s.total_upgrades_purchased + 1 }) ∧
    (scenarioBuyState.buy_selected.gold = 0 ∧
      scenarioBuyState.buy_selected.upgrades[0]? = some { demoUpgrade with owned := 1 } ∧
      scenarioBuyState.buy_selected.total_upgrades_purchased = 1 ∧
      scenarioBuyState.buy_selected.buy_selected = scenarioBuyState.buy_selected) := by
  refine ⟨fun s ht => buy_noop_achievements ht,
    fun s hg => buy_noop_oob hg,
    fun s u hg hca => buy_noop_unaffordable hg hca,
    fun s u hnd hg hca => ?_, ?_⟩
  · by_cases ht : s.current_tab = Tab.Achievements
    · exfalso
      simp [GameState.get_current_upgrades, ht] at hg
    · have humem : u ∈ s.upgrades :=
        mem_upgrades_of_mem_current (List.getElem?_mem hg)
      have hpu : upgradeKeyMatch u u = true := upgradeKeyMatch_iff.mpr rfl
      obtain ⟨i, hi⟩ := findPosition_of_mem (fun v => upgradeKeyMatch v u) humem hpu
      obtain ⟨w, hw, hpw⟩ := findPosition_some hi
      have hw_eq : w = u := eq_of_key_eq hnd hw humem (upgradeKeyMatch_iff.mp hpw)
      subst hw_eq
      exact ⟨i, hw, buy_step ht hg hca hi hw⟩
  · have ht : ¬ scenarioBuyState.current_tab = Tab.Achievements := by decide
    have hg : scenarioBuyState.get_current_upgrades[scenarioBuyState.selected_upgrade]? =
        some demoUpgrade := rfl
    have hca : demoUpgrade.can_afford scenarioBuyState.gold = true := by
      norm_num [Upgrade.can_afford, Upgrade.current_cost, demoUpgrade, Upgrade.new,
        scenarioBuyState, GameState.default]
    have hi : findPosition (fun v => upgradeKeyMatch v demoUpgrade)
        scenarioBuyState.upgrades = some 0 := by decide
    have hw : scenarioBuyState.upgrades[0]? = some demoUpgrade := rfl
    have h1 : scenarioBuyState.buy_selected = scenarioBoughtState := by
      rw [buy_step ht hg hca hi hw]
      norm_num [scenarioBoughtState, scenarioBuyState, GameState.default, Upgrade.current_cost,
        demoUpgrade, Upgrade.new]
    have hg2 : scenarioBoughtState.get_current_upgrades[scenarioBoughtState.selected_upgrade]? =
        some { demoUpgrade with owned := 1 } := rfl
    have hca2 : ({ demoUpgrade with owned := 1 } : Upgrade).can_afford
        scenarioBoughtState.gold = false := by
      norm_num [Upgrade.can_afford, Upgrade.current_cost, demoUpgrade, Upgrade.new,
        scenarioBoughtState, scenarioBuyState, GameState.default]
    have h2 : scenarioBoughtState.buy_selected = scenarioBoughtState :=
      buy_noop_unaffordable hg2 hca2
    rw [h1]
    exact ⟨rfl, rfl, rfl, h2⟩

/-- Witness for claim C5: the no-op on the Achievements tab and the successful
Pickaxe purchase, both on concrete states. -/
theorem buy_selected_spec_witness :
    (((GameState.default 0).switch_tab Tab.Achievements).current_tab = Tab.Achievements ∧
      ((GameState.default 0).switch_tab Tab.Achievements).buy_selected =
        (GameState.default 0).switch_tab Tab.Achievements) ∧
    ((scenarioBuyState.upgrades.map upgradeKey).Nodup ∧
      scenarioBuyState.get_current_upgrades[scenarioBuyState.selected_upgrade]? =
        some demoUpgrade ∧
      demoUpgrade.can_afford scenarioBuyState.gold = true ∧
      ∃ i, scenarioBuyState.upgrades[i]? = some demoUpgrade ∧
        scenarioBuyState.buy_selected = { scenarioBuyState with
          upgrades := scenarioBuyState.upgrades.set i
            { demoUpgrade with owned := demoUpgrade.owned + 1 }
          gold := scenarioBuyState.gold - demoUpgrade.current_cost
          total_upgrades_purchased := scenarioBuyState.total_upgrades_purchased + 1 }) := by
  have hca : demoUpgrade.can_afford scenarioBuyState.gold = true := by
    norm_num [Upgrade.can_afford, Upgrade.current_cost, demoUpgrade, Upgrade.new,
      scenarioBuyState, GameState.default]
  exact ⟨⟨by decide, buy_selected_spec.1 _ (by decide)⟩,
    ⟨by decide, rfl, hca, buy_selected_spec.2.2.2.1 _ _ (by decide) rfl hca⟩⟩

/-- Claim C8: In every reachable state, a driver-loop event never decreases
`total_gold_earned`; `gold` never decreases under any event other than a
purchase, and when `gold` does decrease the event was a purchase that counted
one upgrade. -/
theorem total_gold_mono_spec (s : GameState) (h : Reachable s) (op : Op) :
    s.total_gold_earned ≤ (stepOp s op).total_gold_earned ∧
    (op ≠ Op.buy → s.gold ≤ (stepOp s op).gold) ∧
    ((stepOp s op).gold < s.gold →
      op = Op.buy ∧
      (stepOp s op).total_upgrades_purchased = s.total_upgrades_purchased + 1) := by
  obtain ⟨hg, hcp, hbp, hnd, _, _, _, _⟩ := Inv_reachable h
  cases op with
  | tick now =>
    simp only [stepOp]
    have hle_tge : s.total_gold_earned ≤ (s.update now).total_gold_earned :=
      le_add_of_nonneg_right (mul_nonneg (production_sum_nonneg hbp _) (le_max_right _ _))
    have hle_gold : s.gold ≤ (s.update now).gold :=
      le_add_of_nonneg_right (mul_nonneg (production_sum_nonneg hbp _) (le_max_right _ _))
    exact ⟨hle_tge, fun _ => hle_gold, fun hlt => absurd hlt (not_lt.mpr hle_gold)⟩
  | click now =>
    simp only [stepOp]
    by_cases hc : s.click_cooldown ≤ durationSince now s.last_click
    · rw [click_effective hc]
      exact ⟨le_add_of_nonneg_right hcp, fun _ => le_add_of_nonneg_right hcp,
        fun hlt => absurd hlt (not_lt.mpr (le_add_of_nonneg_right hcp))⟩
    · rw [click_blocked (not_le.mp hc)]
      exact ⟨le_refl _, fun _ => le_refl _, fun hlt => absurd hlt (lt_irrefl _)⟩
  | buy =>
    simp only [stepOp]
    rcases buy_selected_eq s hnd with heq | ⟨i, u, hu, hgcur, hca, heq⟩
    · rw [heq]
      exact ⟨le_refl _, fun _ => le_refl _, fun hlt => absurd hlt (lt_irrefl _)⟩
    · rw [heq]
      exact ⟨le_refl _, fun hne => absurd rfl hne, fun _ => ⟨trivial, rfl⟩⟩
  | next =>
    simp only [stepOp]
    obtain ⟨h1, h2, _⟩ := select_next_fields s
    exact ⟨le_of_eq h2.symm, fun _ => le_of_eq h1.symm,
      fun hlt => absurd hlt (by rw [h1]; exact lt_irrefl _)⟩
  | prev =>
    simp only [stepOp]
    obtain ⟨h1, h2, _⟩ := select_previous_fields s
    exact ⟨le_of_eq h2.symm, fun _ => le_of_eq h1.symm,
      fun hlt => absurd hlt (by rw [h1]; exact lt_irrefl _)⟩
  | switch tab =>
    simp only [stepOp]
    obtain ⟨h1, h2, _⟩ := switch_tab_fields s tab
    exact ⟨le_of_eq h2.symm, fun _ => le_of_eq h1.symm,
      fun hlt => absurd hlt (by rw [h1]; exact lt_irrefl _)⟩
  | toggleHelp =>
    simp only [stepOp]
    exact ⟨le_refl _, fun _ => le_refl _, fun hlt => absurd hlt (lt_irrefl _)⟩

/-- Witness for claim C8 at the fresh game and a tick at time `1`. -/
theorem total_gold_mono_spec_witness :
    (GameState.default 0).total_gold_earned ≤
      (stepOp (GameState.default 0) (Op.tick 1)).total_gold_earned ∧
    (Op.tick 1 ≠ Op.buy →
      (GameState.default 0).gold ≤ (stepOp (GameState.default 0) (Op.tick 1)).gold) ∧
    ((stepOp (GameState.default 0) (Op.tick 1)).gold < (GameState.default 0).gold →
      Op.tick 1 = Op.buy ∧
      (stepOp (GameState.default 0) (Op.tick 1)).total_upgrades_purchased =
        (GameState.default 0).total_upgrades_purchased + 1) :=
  total_gold_mono_spec (GameState.default 0) (Reachable.init 0) (Op.tick 1)

/-- Claim C9: In every reachable state `selected_upgrade` indexes the active
view's list (non-empty for all three views of this catalog); `select_next`
never moves the selection past `count - 1`, `select_previous` decrements with
a floor at `0`, switching to a different tab resets the selection to `0`, and
switching to the current tab changes nothing. -/
theorem selection_spec :
    (∀ s : GameState, Reachable s →
      s.selected_upgrade < s.activeCount ∧ 0 < s.activeCount) ∧
    (∀ s : GameState, s.selected_upgrade < s.activeCount →
      s.select_next.selected_upgrade < s.activeCount) ∧
    (∀ s : GameState,
      s.select_next.selected_upgrade = s.selected_upgrade ∨
      (s.select_next.selected_upgrade = s.selected_upgrade + 1 ∧
        s.select_next.selected_upgrade ≤ s.activeCount - 1)) ∧
    (∀ s : GameState, s.select_previous.selected_upgrade = s.selected_upgrade - 1) ∧
    (∀ (s : GameState) (tab : Tab),
      (tab ≠ s.current_tab →
        (s.switch_tab tab).selected_upgrade = 0 ∧ (s.switch_tab tab).current_tab = tab) ∧
      (tab = s.current_tab → s.switch_tab tab = s)) := by
  refine ⟨fun s hr => ?_, fun s h => ?_, fun s => ?_, fun s => ?_, fun s tab => ⟨?_, ?_⟩⟩
  · have hsel := (Inv_reachable hr).2.2.2.2.2.2.2
    exact ⟨hsel, Nat.lt_of_le_of_lt (Nat.zero_le _) hsel⟩
  · rw [GameState.select_next]
    by_cases hc : s.selected_upgrade < s.activeCount - 1
    · rw [if_pos hc]
      show s.selected_upgrade + 1 < s.activeCount
      omega
    · rw [if_neg hc]
      exact h
  · rw [GameState.select_next]
    by_cases hc : s.selected_upgrade < s.activeCount - 1
    · rw [if_pos hc]
      right
      exact ⟨rfl, by show s.selected_upgrade + 1 ≤ s.activeCount - 1; omega⟩
    · rw [if_neg hc]
      left
      rfl
  · rw [GameState.select_previous]
    by_cases hc : 0 < s.selected_upgrade
    · rw [if_pos hc]
    · rw [if_neg hc]
      show s.selected_upgrade = s.selected_upgrade - 1
      omega
  · intro hne
    rw [GameState.switch_tab, if_pos (Ne.symm hne)]
    exact ⟨rfl, rfl⟩
  · intro heq
    rw [GameState.switch_tab, if_neg (fun hcon => hcon heq.symm)]

/-- Witness for claim C9 at the fresh game: valid initial selection, a
selection move, and a tab switch. -/
theorem selection_spec_witness :
    ((GameState.default 0).selected_upgrade < (GameState.default 0).activeCount ∧
      0 < (GameState.default 0).activeCount) ∧
    ((GameState.default 0).selected_upgrade < (GameState.default 0).activeCount ∧
      (GameState.default 0).select_next.selected_upgrade < (GameState.default 0).activeCount) ∧
    (Tab.Click ≠ (GameState.default 0).current_tab ∧
      ((GameState.default 0).switch_tab Tab.Click).selected_upgrade = 0) :=
  ⟨selection_spec.1 _ (Reachable.init 0),
    ⟨by decide, selection_spec.2.1 _ (by decide)⟩,
    ⟨by decide, ((selection_spec.2.2.2.2 _ Tab.Click).1 (by decide)).1⟩⟩

/-- Claim C10: The fresh game has `last_click` one second before creation and a
`500 ms` cooldown, so the first click of a session (at any time not before
creation) is always effective: it awards `click_power` gold and counts one
click. -/
theorem first_click_effective (t0 now : ℚ) (h : t0 ≤ now) :
    (GameState.default t0).last_click = t0 - 1 ∧
    (GameState.default t0).click_cooldown = 1/2 ∧
    ((GameState.default t0).click_for_gold now).gold =
      (GameState.default t0).gold + (GameState.default t0).click_power ∧
    ((GameState.default t0).click_for_gold now).total_clicks = 1 := by
  have hcool : (GameState.default t0).click_cooldown ≤
      durationSince now (GameState.default t0).last_click := by
    show (1:ℚ)/2 ≤ max (now - (t0 - 1)) 0
    have h1 : (1:ℚ)/2 ≤ now - (t0 - 1) := by linarith
    exact le_trans h1 (le_max_left _ _)
  rw [click_effective hcool]
  exact ⟨rfl, rfl, rfl, rfl⟩

/-- Witness for claim C10 with creation and first click both at time `0`. -/
theorem first_click_effective_witness :
    ((0:ℚ) ≤ 0) ∧
    ((GameState.default 0).last_click = 0 - 1 ∧
      (GameState.default 0).click_cooldown = 1/2 ∧
      ((GameState.default 0).click_for_gold 0).gold =
        (GameState.default 0).gold + (GameState.default 0).click_power ∧
      ((GameState.default 0).click_for_gold 0).total_clicks = 1) :=
  ⟨le_refl 0, first_click_effective 0 0 (le_refl 0)⟩

end IdleGame
